import Mathlib

set_option maxRecDepth 8000

/-
Verification development for the VQTools repository: a shallow embedding of
the job planner, precondition validator, dispatch decision and aggregation
engine, with theorems settling the specification claims.

Conventions of the embedding:
- Python strings are Lean String; paths use the posixpath conventions of the
  source (os.path.basename / splitext / join / dirname are re-implemented
  below over lists of characters).
- Python floats are modelled as Rat (the comparisons in the sources are
  tolerance checks and equalities on probed values).
- The filesystem is passed explicitly: os.path.exists becomes membership in a
  list of existing paths, os.walk becomes the list of (root, files) pairs the
  walk would yield.
- Fallible Python code returns Except PyExc; exceptions that a try/except in
  the source catches are handled where the source handles them, all others
  propagate.
-/

/- ---------- Python exception model ---------- -/

/-- Exception classes raised by the modelled code paths. -/
inductive PyExc where
  | attributeError
  | keyError (key : String)
  | typeError
  | valueError
  | indexError
  | fileNotFoundError
  | exceptionMsg (msg : String)
deriving DecidableEq, Repr

/- ---------- posixpath helpers used by the sources ---------- -/

/-- Model of os.path.basename for POSIX paths: the part after the last slash. -/
def basename (p : String) : String :=
  String.mk ((p.toList.reverse.takeWhile (fun c => c ≠ '/')).reverse)

/-- Model of os.path.dirname for POSIX paths: the part before the last slash,
with trailing slashes stripped unless the head is all slashes. -/
def dirname (p : String) : String :=
  let cs := p.toList
  if cs.any (fun c => c = '/') then
    let head := (cs.reverse.dropWhile (fun c => c ≠ '/')).reverse
    if head.any (fun c => c ≠ '/') then
      String.mk ((head.reverse.dropWhile (fun c => c = '/')).reverse)
    else
      String.mk head
  else ""

/-- Index of the last occurrence of a character, counting from offset i. -/
def lastIdxAux (c : Char) : List Char → Nat → Option Nat
  | [], _ => none
  | x :: xs, i =>
      match lastIdxAux c xs (i + 1) with
      | some j => some j
      | none => if x = c then some i else none

/-- Model of the root part of os.path.splitext: everything before the last dot
of the final path component, provided a non-dot character precedes that dot
within the component (leading dots never start an extension). -/
def splitextRoot (p : String) : String :=
  let cs := p.toList
  match lastIdxAux '.' cs 0 with
  | none => p
  | some di =>
      let fi : Nat :=
        match lastIdxAux '/' cs 0 with
        | some k => k + 1
        | none => 0
      if fi ≤ di ∧ ((cs.drop fi).take (di - fi)).any (fun ch => ch ≠ '.') then
        String.mk (cs.take di)
      else p

/-- Model of the extension part of os.path.splitext (includes the dot). -/
def splitextExt (p : String) : String :=
  String.mk (p.toList.drop (splitextRoot p).length)

/-- Model of str.lower restricted to what Char.toLower covers (sufficient for
the ASCII file names the tools handle). -/
def strLower (s : String) : String :=
  String.mk (s.toList.map Char.toLower)

/-- Model of the Python substring test: needle in hay. -/
def strIn (needle hay : String) : Bool :=
  hay.toList.tails.any (fun t => needle.toList.isPrefixOf t)

/-- Model of the two-argument posixpath.join used by the sources. -/
def pathJoin (a b : String) : String :=
  if b.toList.head? = some '/' then b
  else if a = "" ∨ a.toList.getLast? = some '/' then a ++ b
  else a ++ "/" ++ b

/- ---------- Mode registry (src/tools/vqcheck.py lines 5-23) ---------- -/

/-- The MODES table of src/tools/vqcheck.py: backend group to supported mode
identifiers, in source order. -/
def MODES : List (String × List String) :=
  [ ("ffmpeg", ["vmaf4k", "vmaf", "vmaf4k-full", "vmaf-full", "psnr"])
  , ("cvqa", ["cvqa-nr", "cvqa-nr-ms", "cvqa-fr", "cvqa-fr-ms"])
  , ("lpips", ["lpips-alex", "lpips-vgg"])
  , ("dover", ["dover"])
  , ("cover", ["cover"])
  , ("cvvdp", ["cvvdp-fhd", "cvvdp-4k"])
  , ("uvq", ["uvq"])
  , ("maxvqa", ["maxvqa"])
  , ("pyiqa", ["musiq", "brisque", "niqe", "clipiqa", "clipiqa+", "dists"])
  , ("jpegxl", ["ssimulacra2", "butteraugli"])
  , ("fastvqa", ["fastvqa", "fastervqa"])
  , ("qalign", ["qalign"])
  , ("check", ["check"]) ]

/-- FR_MODES of src/tools/vqcheck.py line 21, verbatim. -/
def FR_MODES : List String :=
  ["check", "vmaf4k", "vmaf", "vmaf4k-full", "vmaf-full", "psnr", "cvqa-fr",
   "cvqa-fr-ms", "lpips", "dists", "ssimulacra2", "butteraugli", "cvvdp-fhd",
   "cvvdp-4k"]

/-- NR_MODES of src/tools/vqcheck.py line 22, verbatim. -/
def NR_MODES : List String :=
  ["cvqa-nr", "cvqa-nr-ms", "dover", "cover", "uvq", "maxvqa", "musiq",
   "qalign", "fastvqa", "fastervqa", "brisque", "niqe", "clipiqa", "clipiqa+"]

/-- AVAILABLE_MODES: the flattening of the MODES table values. -/
def AVAILABLE_MODES : List String :=
  (MODES.map Prod.snd).flatten

/- ---------- Output naming and planner (src/metrics/utils.py, src/tools/vqcheck.py) ---------- -/

/-- get_output_filename of src/metrics/utils.py lines 211-222: the canonical
result path for a (distorted, mode, output directory) triple. -/
def get_output_filename (distorted mode : String) (output_dir : Option String) : String :=
  let base_name := splitextRoot (basename distorted)
  let odir :=
    match output_dir with
    | none => dirname distorted
    | some d => d
  if strIn "psnr" mode then pathJoin odir (base_name ++ ".psnr.json")
  else if strIn "vmaf" mode then pathJoin odir (base_name ++ ".vmaf.json")
  else pathJoin odir (base_name ++ "." ++ mode ++ ".json")

/-- Per-character case-insensitive common run length, as counted by the loop
in find_reference_file (stops at the first mismatch). -/
def prefLenAux : List Char → List Char → Nat
  | a :: as, b :: bs =>
      if a.toLower = b.toLower then prefLenAux as bs + 1 else 0
  | _, _ => 0

/-- The matching character count find_reference_file computes between the
stem of the distorted base name and the stem of a reference base name. -/
def ref_match_len (distorted reference : String) : Nat :=
  prefLenAux (splitextRoot (basename distorted)).toList
    (splitextRoot (basename reference)).toList

/-- Accumulator loop of find_reference_file (src/metrics/utils.py lines
179-197): keeps the first reference that strictly beats the best count. -/
def frfAux (distorted : String) : List String → Option String → Nat → Option String
  | [], best, _ => best
  | r :: rs, best, maxc =>
      let m := ref_match_len distorted r
      if maxc < m then frfAux distorted rs (some r) m
      else frfAux distorted rs best maxc

/-- find_reference_file of src/metrics/utils.py lines 179-197 (identical copy
in src/vqcheck.py lines 26-44). -/
def find_reference_file (distorted : String) (refs : List String) : Option String :=
  frfAux distorted refs none 0

/-- The maximum matching character count over a reference list (0 for the
empty list); used to characterise find_reference_file. -/
def maxMatchLen (distorted : String) (refs : List String) : Nat :=
  refs.foldr (fun r acc => max (ref_match_len distorted r) acc) 0

/-- A planned job: (mode, distorted, reference, output_dir), the tuple built
by get_jobs in src/tools/vqcheck.py. -/
abbrev Job := String × String × Option String × Option String

/-- The reference chosen for one distorted file by get_jobs lines 218-224: no
reference files gives None, exactly one is used for everything, several go
through find_reference_file. -/
def job_reference (d : String) (refs : List String) : Option String :=
  if refs = [] then none
  else if refs.length = 1 then refs.head?
  else find_reference_file d refs

/-- get_jobs of src/tools/vqcheck.py lines 211-232. The filesystem is passed
as the list fs of paths for which os.path.exists is true. -/
def get_jobs : List String → List String → String → Option String → List String → List Job
  | [], _, _, _, _ => []
  | d :: rest, refs, mode, odir, fs =>
      if get_output_filename d mode odir ∈ fs then
        get_jobs rest refs mode odir fs
      else
        if job_reference d refs = none ∧ mode ∈ FR_MODES then
          get_jobs rest refs mode odir fs
        else
          (mode, d, job_reference d refs, odir) :: get_jobs rest refs mode odir fs

/- ---------- File discovery (src/metrics/utils.py lines 165-176) ---------- -/

/-- The recognised extension set of get_video_files. -/
def video_extensions : List String := [".mp4", ".mkv", ".mov"]

/-- The per-file filter of get_video_files: recognised lower-cased extension
and not a hidden file. -/
def vid_ok (f : String) : Bool :=
  video_extensions.contains (strLower (splitextExt f)) && !(f.toList.head? = some '.')

/-- get_video_files of src/metrics/utils.py lines 165-176 (identical copy in
src/vqcheck.py lines 12-23). The source iterates os.walk(dir); the walk
argument here is the list of (root, files) pairs that walk yields, i.e. one
pair for the directory itself and one for every subdirectory of the tree. -/
def get_video_files : List (String × List String) → List String
  | [] => []
  | (root, files) :: rest =>
      (files.filter vid_ok).map (fun f => pathJoin root f) ++ get_video_files rest

/-- Modelled from the spec: the non-recursive discovery the specification
describes ("directories searched non-recursively at the top call site"); it
keeps only the walk entry whose root is the directory itself. Used solely to
compare the spec reading against the source behaviour. -/
def get_video_files_nonrecursive (dir : String) (walk : List (String × List String)) : List String :=
  get_video_files (walk.filter (fun rf => rf.1 == dir))

/- ---------- Video properties and the precondition comparisons ---------- -/

/-- The normalized property record assembled by get_video_info
(src/metrics/utils.py lines 51-61). The timebase field is Modelled from the
spec: the spec lists timebase in VideoProperties and compare_video_properties
in src/tools/vqcheck.py reads it, while the copy of get_video_info under src
does not populate it. -/
structure VideoInfo where
  width : Int
  height : Int
  resolution : String
  fps : Rat
  pix_fmt : String
  color_range : String
  file_size : Int
  frame_count : Int
  duration : Rat
  timebase : String
deriving DecidableEq, Repr

/-- The fps tolerance of both comparison functions. -/
def fps_tolerance : Rat := 1 / 1000

/-- The (severity, text) message list built by compare_video_properties in
src/tools/vqcheck.py lines 99-117, in source order. -/
def property_messages (r d : VideoInfo) : List (String × String) :=
  (if r.width ≠ d.width ∨ r.height ≠ d.height then [("ERROR", "Resolution mismatch")] else []) ++
  (if r.frame_count ≠ d.frame_count then [("ERROR", "Frame count mismatch")] else []) ++
  (if fps_tolerance < |r.fps - d.fps| then [("WARNING", "Framerate mismatch")] else []) ++
  (if r.color_range ≠ d.color_range ∧ r.color_range ≠ "unknown" ∧ d.color_range ≠ "unknown" then
    [("WARNING", "Color range mismatch")] else []) ++
  (if r.pix_fmt ≠ d.pix_fmt then [("WARNING", "Pixel format mismatch")] else []) ++
  (if r.timebase ≠ d.timebase then [("ERROR", "Timebase mismatch")] else [])

/-- compare_video_properties of src/tools/vqcheck.py lines 80-133: fails when
either probe returned nothing, otherwise fails exactly when an ERROR-severity
message was produced. -/
def compare_video_properties (r d : Option VideoInfo) : Bool :=
  match r, d with
  | some ri, some di => !((property_messages ri di).any (fun m => m.1 == "ERROR"))
  | _, _ => false

/-- compare_video_properties of src/vqcheck.py lines 130-181 (the standalone
legacy tool): resolution, frame count and framerate mismatches all set
has_errors; pixel format and color range mismatches only print. There is no
timebase check in this version. -/
def compare_video_properties_legacy (r d : Option VideoInfo) : Bool :=
  match r, d with
  | some ri, some di =>
      if ri.width ≠ di.width ∨ ri.height ≠ di.height ∨
         ri.frame_count ≠ di.frame_count ∨ fps_tolerance < |ri.fps - di.fps| then
        false
      else true
  | _, _ => false

/- ---------- run_analysis dispatch decision (src/tools/vqcheck.py lines 136-209) ---------- -/

/-- The observable decision run_analysis makes before/at backend dispatch. -/
inductive RunOutcome where
  | skippedExisting
  | checkResult (passed : Bool)
  | abortedNoInfo (passed : Bool)
  | skippedMismatch (passed : Bool)
  | dispatched (group : String) (passed : Bool)
      (scale : Option (Int × Int)) (forcedFps : Option Rat)
  | unknownMode (mode : String)
deriving DecidableEq, Repr

/-- The condition written in src/tools/vqcheck.py line 153 as the Python
expression in which the word vmaf stands alone on the left of the or: by
Python precedence it parses as the truthiness of the nonempty string "vmaf"
or-ed with the substring test, so it is identically true. -/
def vmaf_or_psnr_in_mode (mode : String) : Bool :=
  !("vmaf" == "") || strIn "psnr" mode

/-- The groups tried by the dispatch chain of run_analysis lines 171-209, in
source order; the check group has no run branch there. -/
def dispatch_groups : List (String × List String) :=
  MODES.filter (fun g => g.1 != "check")

/-- The backend group the dispatch chain of run_analysis selects for a mode
(none models the final raise ValueError branch). -/
def backend_group (mode : String) : Option String :=
  (dispatch_groups.find? (fun g => g.2.contains mode)).map Prod.fst

/-- run_analysis of src/tools/vqcheck.py lines 136-209, reduced to its
dispatch decision. refInfo and distInfo are the get_video_info results for
the two paths (the source probes the same paths twice; both probes see the
same value here). hasOutputDir and outputExists model the output_dir guard
at lines 138-142. -/
def run_analysis (mode : String) (reference : Option String)
    (refInfo distInfo : Option VideoInfo)
    (hasOutputDir outputExists : Bool) : RunOutcome :=
  if hasOutputDir && outputExists then .skippedExisting
  else
    let dispatch := fun (pm : Bool) (scale : Option (Int × Int)) (ffps : Option Rat) =>
      match backend_group mode with
      | some g => RunOutcome.dispatched g pm scale ffps
      | none => RunOutcome.unknownMode mode
    if FR_MODES.contains mode && reference.isSome then
      let pm := compare_video_properties refInfo distInfo
      if mode == "check" then .checkResult pm
      else if !pm && vmaf_or_psnr_in_mode mode then
        match refInfo, distInfo with
        | some ri, some di =>
            let scale : Option (Int × Int) :=
              if ri.width ≠ di.width ∨ ri.height ≠ di.height then
                some (ri.width, ri.height)
              else none
            let ffps : Option Rat :=
              if ri.timebase ≠ di.timebase then some ri.fps else none
            dispatch pm scale ffps
        | _, _ => .abortedNoInfo pm
      else if !pm then .skippedMismatch pm
      else dispatch pm none none
    else dispatch true none none

/- ---------- JSON model for the aggregation engine and the probe ---------- -/

/-- Parsed JSON values (Python floats as Rat). -/
inductive Json where
  | null
  | bool (b : Bool)
  | num (q : Rat)
  | str (s : String)
  | arr (xs : List Json)
  | obj (kvs : List (String × Json))
deriving Repr

/-- Python truthiness of a loaded JSON value (used by the if-not-data guards). -/
def jsonTruthy : Json → Bool
  | .null => false
  | .bool b => b
  | .num q => !(q == 0)
  | .str s => !(s == "")
  | .arr xs => !xs.isEmpty
  | .obj kvs => !kvs.isEmpty

/-- First-match lookup in an association list, the access pattern of a Python
dict (whose keys are unique). -/
def alookup {α : Type} : List (String × α) → String → Option α
  | [], _ => none
  | (k0, v0) :: rest, k => if k0 = k then some v0 else alookup rest k

/-- Update-or-append on an association list: the effect of d[k] = v on a
Python dict (updates in place, appends new keys in insertion order). -/
def aset {α : Type} : List (String × α) → String → α → List (String × α)
  | [], k, v => [(k, v)]
  | (k0, v0) :: rest, k, v =>
      if k0 = k then (k0, v) :: rest else (k0, v0) :: aset rest k v

/-- Python subscript x[k] with a string key: KeyError when the key is absent
from a dict, TypeError when x is not a dict. -/
def jGetItem (j : Json) (k : String) : Except PyExc Json :=
  match j with
  | .obj kvs =>
      match alookup kvs k with
      | some v => .ok v
      | none => .error (.keyError k)
  | _ => .error .typeError

/-- Chained subscripts x[k1][k2]...: the shape of every extractor lambda. -/
def pget : Json → List String → Except PyExc Json
  | j, [] => .ok j
  | j, k :: ks =>
      match jGetItem j k with
      | .ok v => pget v ks
      | .error e => .error e

/-- Python subscript x[i] with an integer index (IndexError on a short list
or string, TypeError on non-sequences, KeyError on a dict). -/
def jIndex (j : Json) (i : Nat) : Except PyExc Json :=
  match j with
  | .arr xs =>
      match xs.get? i with
      | some v => .ok v
      | none => .error .indexError
  | .str s =>
      match s.toList.get? i with
      | some c => .ok (.str (String.mk [c]))
      | none => .error .indexError
  | .obj _ => .error (.keyError "0")
  | _ => .error .typeError

/-- Numeric coercion for the arithmetic extractors (Python bools are ints;
anything non-numeric raises TypeError when combined with numbers). -/
def jNum : Json → Except PyExc Rat
  | .num q => .ok q
  | .bool b => .ok (if b then 1 else 0)
  | _ => .error .typeError

/-- Extractor shorthand for the pervasive nested-lookup lambdas. -/
def g (path : List String) : Json → Except PyExc Json :=
  fun x => pget x path

/-- The psnr extractor of the vmaf config: a weighted mean of three pooled
psnr channels, evaluated left to right as Python does. -/
def psnr_combo (x : Json) : Except PyExc Json := do
  let y ← jNum (← pget x ["pooled_metrics", "psnr_y", "mean"])
  let cb ← jNum (← pget x ["pooled_metrics", "psnr_cb", "mean"])
  let cr ← jNum (← pget x ["pooled_metrics", "psnr_cr", "mean"])
  pure (.num ((6 * y + cb + cr) / 8))

/-- The clip extractor: x with subscript clip then index 0. -/
def clip_extract (x : Json) : Except PyExc Json :=
  match jGetItem x "clip" with
  | .ok v => jIndex v 0
  | .error e => .error e

/-- metric_configs of src/tools/aggmet.py lines 7-96: metric key to the
ordered (output key, extractor) list. -/
def metric_configs : List (String × List (String × (Json → Except PyExc Json))) :=
  [ ("vmaf",
      [ ("vmaf", g ["pooled_metrics", "vmaf", "mean"])
      , ("vmaf", g ["pooled_metrics", "vmaf_4k", "mean"])
      , ("vmaf-neg", g ["pooled_metrics", "vmaf_neg", "mean"])
      , ("vif-scale0", g ["pooled_metrics", "integer_vif_scale0", "mean"])
      , ("vif-scale0-egl", g ["pooled_metrics", "integer_vif_scale0_egl_1", "mean"])
      , ("vif-scale1", g ["pooled_metrics", "integer_vif_scale1", "mean"])
      , ("vif-scale1-egl", g ["pooled_metrics", "integer_vif_scale1_egl_1", "mean"])
      , ("vif-scale2", g ["pooled_metrics", "integer_vif_scale2", "mean"])
      , ("vif-scale2-egl", g ["pooled_metrics", "integer_vif_scale2_egl_1", "mean"])
      , ("vif-scale3", g ["pooled_metrics", "integer_vif_scale3", "mean"])
      , ("vif-scale3-egl", g ["pooled_metrics", "integer_vif_scale3_egl_1", "mean"])
      , ("adm2", g ["pooled_metrics", "integer_adm2", "mean"])
      , ("adm-scale0", g ["pooled_metrics", "integer_adm_scale0", "mean"])
      , ("adm-scale1", g ["pooled_metrics", "integer_adm_scale1", "mean"])
      , ("adm-scale2", g ["pooled_metrics", "integer_adm_scale2", "mean"])
      , ("adm-scale3", g ["pooled_metrics", "integer_adm_scale3", "mean"])
      , ("motion", g ["pooled_metrics", "integer_motion", "mean"])
      , ("motion2", g ["pooled_metrics", "integer_motion2", "mean"])
      , ("psnr", psnr_combo)
      , ("ssim", g ["pooled_metrics", "float_ssim", "mean"])
      , ("ms-ssim", g ["pooled_metrics", "float_ms_ssim", "mean"])
      , ("psnr-y", g ["pooled_metrics", "psnr_y", "mean"])
      , ("psnr-cb", g ["pooled_metrics", "psnr_cb", "mean"])
      , ("psnr-cr", g ["pooled_metrics", "psnr_cr", "mean"])
      , ("psnr-hvs", g ["pooled_metrics", "psnr_hvs", "mean"]) ])
  , ("avqbitsm0", [("avqbitsm0", g ["per_sequence"])])
  , ("avqbitsm1", [("avqbitsm1", g ["per_sequence"])])
  , ("avqbitsh0f", [("avqbitsh0f", g ["per_sequence"])])
  , ("lpips", [("lpips", g ["metadata", "mean_distance"])])
  , ("dover",
      [ ("dover", g ["dover"])
      , ("dover_aesthetic", g ["cover_res_0"])
      , ("dover_technical", g ["cover_res_1"])
      , ("dover", g ["fused_score"])
      , ("dover_aesthetic", g ["aesthetic_score"])
      , ("dover_technical", g ["technical_score"]) ])
  , ("cover",
      [ ("cover", g ["fused_score"])
      , ("cover_aesthetic", g ["aesthetic_score"])
      , ("cover_technical", g ["technical_score"])
      , ("cover_semantic", g ["semantic_score"]) ])
  , ("maxvqa",
      [ ("maxvqa", g ["overall_score"])
      , ("maxvqa_quality", g ["high quality vs low quality"])
      , ("maxvqa_content", g ["good content vs bad content"])
      , ("maxvqa_composition", g ["organized composition vs chaotic composition"])
      , ("maxvqa_color", g ["vibrant color vs faded color"])
      , ("maxvqa_lighting", g ["contrastive lighting vs gloomy lighting"])
      , ("maxvqa_trajectory", g ["consistent trajectory vs incoherent trajectory"])
      , ("maxvqa_aesthetics", g ["good aesthetics vs bad aesthetics"])
      , ("maxvqa_sharpness", g ["sharp vs fuzzy"])
      , ("maxvqa_focus", g ["in-focus vs out-of-focus"])
      , ("maxvqa_noise", g ["noiseless vs noisy"])
      , ("maxvqa_motion", g ["clear-motion vs blurry-motion"])
      , ("maxvqa_stability", g ["stable vs shaky"])
      , ("maxvqa_exposure", g ["well-exposed vs poorly-exposed"])
      , ("maxvqa_compression", g ["original vs compressed"])
      , ("maxvqa_fluency", g ["fluent vs choppy"])
      , ("maxvqa_clarity", g ["clear vs severely degraded"]) ])
  , ("uvq",
      [ ("uvq", g ["uvq"])
      , ("uvq_compression", g ["compression"])
      , ("uvq_content", g ["content"])
      , ("uvq_distortion", g ["distortion"])
      , ("uvq_compression_content", g ["compression_content"])
      , ("uvq_compression_distortion", g ["compression_distortion"])
      , ("uvq_content_distortion", g ["content_distortion"]) ])
  , ("fastvqa", [("fastvqa", g ["score"])])
  , ("fastervqa",
      [ ("fastervqa", g ["fastervqa_score"])
      , ("fastervqa", g ["score"]) ])
  , ("brisque", [("brisque", g ["mean_score"])])
  , ("niqe", [("niqe", g ["mean_score"])])
  , ("clipiqa", [("clipiqa", g ["mean_score"])])
  , ("clipiqa+", [("clipiqa+", g ["mean_score"])])
  , ("dists", [("dists", g ["mean_score"])])
  , ("musiq",
      [ ("musiq", g ["mean_musiq"])
      , ("musiq", g ["mean_score"]) ])
  , ("vila", [("vila", g ["mean_vila"])])
  , ("qalign",
      [ ("qalign", g ["qalign_score"])
      , ("qalign", g ["score"]) ])
  , ("cvqa-nr", [("cvqa-nr", g ["score"])])
  , ("cvqa-nr-ms", [("cvqa-nr-ms", g ["score"])])
  , ("cvqa-fr", [("cvqa-fr", g ["score"])])
  , ("cvqa-fr-ms", [("cvqa-fr-ms", g ["score"])])
  , ("p12043", [("p12043", g ["per_sequence"])])
  , ("p12044", [("p12044", g ["score"])])
  , ("siti",
      [ ("si", g ["aggregated_statistics", "si", "mean"])
      , ("ti", g ["aggregated_statistics", "ti", "mean"]) ])
  , ("clip", [("clip", clip_extract)]) ]

/- ---------- Aggregation engine (src/tools/aggmet.py main, lines 129-199) ---------- -/

/-- A ConsolidatedEntry: a Python dict from keys to JSON values in insertion
order. -/
abbrev Entry := List (String × Json)

/-- The metadata whitelist of src/tools/aggmet.py line 172. -/
def meta_keys : List String :=
  ["bitrate", "bit_rate", "bpp", "bit_depth", "fps", "frame_rate", "framerate",
   "frames", "filesize", "encoding_time", "encoding_speed"]

/-- The per-item metadata loop of aggmet main lines 171-176: whitelisted keys
are assigned unconditionally; an upscaling value has its spf field stored as
upscaling_spf, raising (uncaught) if the subscript fails. -/
def process_meta_items : Entry → List (String × Json) → Except PyExc Entry
  | entry, [] => .ok entry
  | entry, (key, value) :: rest =>
      let entry1 := if meta_keys.contains key then aset entry key value else entry
      if key == "upscaling" then
        match jGetItem value "spf" with
        | .ok spf => process_meta_items (aset entry1 "upscaling_spf" spf) rest
        | .error e => .error e
      else
        process_meta_items entry1 rest

/-- The meta branch of aggmet main lines 169-176: load_json_if_exists gives
None for a file that fails to parse, and metadata.items() then raises
AttributeError (as it also does when the JSON is not an object). -/
def process_meta (entry : Entry) (content : Option Json) : Except PyExc Entry :=
  match content with
  | none => .error .attributeError
  | some (.obj kvs) => process_meta_items entry kvs
  | some _ => .error .attributeError

/-- Which exceptions the except clause at aggmet line 196 catches. -/
def caught_by_extract : PyExc → Bool
  | .keyError _ => true
  | .typeError => true
  | _ => false

/-- The skip condition at aggmet line 192: the output key is already present
in the entry with a value that is not None. -/
def extract_skip (entry : Entry) (output_key : String) : Bool :=
  match alookup entry output_key with
  | some Json.null => false
  | none => false
  | some _ => true

/-- The inner extractor loop of aggmet main lines 189-197: skip a key already
set to a non-None value, otherwise attempt the extractor, recording
KeyError/TypeError failures as (output key, file path) and propagating any
other exception. -/
def process_config_items : Entry → String → Json →
    List (String × (Json → Except PyExc Json)) → Except PyExc (Entry × List (String × String))
  | entry, _, _, [] => .ok (entry, [])
  | entry, path, data, (output_key, extractor) :: rest =>
      if extract_skip entry output_key then process_config_items entry path data rest
      else
        match extractor data with
        | .ok v => process_config_items (aset entry output_key v) path data rest
        | .error e =>
            if caught_by_extract e then
              match process_config_items entry path data rest with
              | .ok (ent, fails) => .ok (ent, (output_key, path) :: fails)
              | .error e2 => .error e2
            else .error e

/-- One metric file as discovered by the walk: (metric key, path, parsed
content; none when the file does not parse as JSON). -/
abbrev MetricFile := String × String × Option Json

/-- Dict lookup of a metric key among the files found for one base name. -/
def lookup_metric (metrics : List MetricFile) (key : String) : Option (String × Option Json) :=
  match metrics with
  | [] => none
  | (k, p, c) :: rest => if k = key then some (p, c) else lookup_metric rest key

/-- The outer extractor loop of aggmet main lines 180-197 over the config
table: a file whose loaded content is falsy (including a parse failure) is
recorded in failed_load and skipped; otherwise its config items run. Returns
the entry, failed_load paths and failed_extract pairs. -/
def process_configs_all : Entry → List MetricFile →
    List (String × List (String × (Json → Except PyExc Json))) →
    Except PyExc (Entry × List String × List (String × String))
  | entry, _, [] => .ok (entry, [], [])
  | entry, metrics, (metric_key, config) :: restConfigs =>
      match lookup_metric metrics metric_key with
      | none => process_configs_all entry metrics restConfigs
      | some (path, content) =>
          let dataOk : Option Json :=
            match content with
            | some j => if jsonTruthy j then some j else none
            | none => none
          match dataOk with
          | none =>
              match process_configs_all entry metrics restConfigs with
              | .ok (e2, fl, fe) => .ok (e2, path :: fl, fe)
              | .error e => .error e
          | some data =>
              match process_config_items entry path data config with
              | .ok (e1, fails) =>
                  match process_configs_all e1 metrics restConfigs with
                  | .ok (e2, fl, fe) => .ok (e2, fl, fails ++ fe)
                  | .error e => .error e
              | .error e => .error e

/-- The per-base-name body of aggmet main lines 163-197: the meta branch runs
first on the consolidated entry, then every configured metric file. -/
def process_base (entry : Entry) (metrics : List MetricFile) :
    Except PyExc (Entry × List String × List (String × String)) :=
  let step1 : Except PyExc Entry :=
    match lookup_metric metrics "meta" with
    | some (_, content) => process_meta entry content
    | none => .ok entry
  match step1 with
  | .error e => .error e
  | .ok e1 => process_configs_all e1 metrics metric_configs

/-- The aggregation loop of aggmet main over the grouped metric files: seeds
from the consolidated data, creates missing entries with only name set,
processes each base name and accumulates the error report. An exception in
any base aborts the whole run. -/
def aggregate : List (String × Entry) → List (String × List MetricFile) →
    Except PyExc (List (String × Entry) × List String × List (String × String))
  | acc, [] => .ok (acc, [], [])
  | acc, (base, metrics) :: rest =>
      let entry :=
        match alookup acc base with
        | some e => e
        | none => [("name", Json.str base)]
      match process_base entry metrics with
      | .error e => .error e
      | .ok (e1, fl, fe) =>
          match aggregate (aset acc base e1) rest with
          | .ok (accF, fl2, fe2) => .ok (accF, fl ++ fl2, fe ++ fe2)
          | .error e => .error e

/- ---------- get_video_info (src/metrics/utils.py lines 20-68) ---------- -/

/-- The outcome of the ffprobe subprocess call: a nonzero exit raises
subprocess.CalledProcessError, a missing executable raises
FileNotFoundError, and otherwise the captured stdout either parses as JSON
or raises json.JSONDecodeError (modelled as the none payload). -/
inductive ProbeOutcome where
  | calledProcessError
  | fileNotFoundError
  | stdout (parsed : Option Json)

/-- Python int() on a probed JSON value: numbers truncate toward zero,
numeric strings parse, bools are 0/1, anything else raises. -/
def pyInt : Json → Except PyExc Int
  | .num q => .ok (if q ≥ 0 then q.floor else q.ceil)
  | .str s =>
      match s.toInt? with
      | some n => .ok n
      | none => .error .valueError
  | .bool b => .ok (if b then 1 else 0)
  | _ => .error .typeError

/-- Decimal parse backing the float(fps_str) branch (plain decimal literals
only, which covers every probed rate string). -/
def parseDecimal (s : String) : Option Rat :=
  let core := fun (t : String) =>
    match t.splitOn "." with
    | [a] => (a.toNat?).map (fun n => (n : Rat))
    | [a, b] =>
        match a.toNat?, b.toNat? with
        | some x, some y => some ((x : Rat) + (y : Rat) / ((10 : Rat) ^ b.length))
        | _, _ => none
    | _ => none
  if s.toList.head? = some '-' then (core (s.drop 1)).map (fun q => -q) else core s

/-- The r_frame_rate parse of get_video_info lines 40-45: a slash means two
ints (ValueError on anything else), with a zero denominator giving fps 0;
otherwise float() of the string. -/
def parse_r_frame_rate (s : String) : Except PyExc Rat :=
  if strIn "/" s then
    match s.splitOn "/" with
    | [a, b] =>
        match a.toInt?, b.toInt? with
        | some num, some den =>
            .ok (if den ≠ 0 then (num : Rat) / (den : Rat) else 0)
        | _, _ => .error .valueError
    | _ => .error .valueError
  else
    match parseDecimal s with
    | some q => .ok q
    | none => .error .valueError

/-- Python dict .get(k, default) on a probed JSON value: AttributeError when
the value is not a dict. -/
def jGetDefault (j : Json) (k : String) (dflt : Json) : Except PyExc Json :=
  match j with
  | .obj kvs => .ok ((alookup kvs k).getD dflt)
  | _ => .error .attributeError

/-- String view of a probed JSON field (the probed stream fields the record
stores as text are strings whenever the probe succeeds). -/
def jAsStr : Json → String
  | .str s => s
  | _ => ""

/-- get_video_info of src/metrics/utils.py lines 20-68 (identical error
structure in src/vqcheck.py lines 47-95). The try block catches only
subprocess.CalledProcessError and json.JSONDecodeError (returning None);
the explicit raise on an empty stream list, the subscript errors on
non-object probe data, and a missing probe executable all propagate.
cv2_frame_count stands for the get_frame_count_cv2 call. The timebase field
is Modelled from the spec (see VideoInfo). -/
def get_video_info (probe : ProbeOutcome) (cv2_frame_count : Int) :
    Except PyExc (Option VideoInfo) :=
  match probe with
  | .calledProcessError => .ok none
  | .fileNotFoundError => .error .fileNotFoundError
  | .stdout none => .ok none
  | .stdout (some data) =>
      match data with
      | .obj kvs =>
          match alookup kvs "streams" with
          | none => .error (.keyError "streams")
          | some streams =>
              if !jsonTruthy streams then
                .error (.exceptionMsg "No video stream found")
              else
                match streams with
                | .arr (stream :: _) => do
                    let format_info := (alookup kvs "format").getD (Json.obj [])
                    let fps_j ← jGetDefault stream "r_frame_rate" (Json.str "0/1")
                    let fps ←
                      match fps_j with
                      | .str s => parse_r_frame_rate s
                      | _ => .error .typeError
                    let frame_count := cv2_frame_count
                    let duration : Rat :=
                      if 0 < fps then (frame_count : Rat) / fps else 0
                    let width ← pyInt (← jGetDefault stream "width" (.num 0))
                    let height ← pyInt (← jGetDefault stream "height" (.num 0))
                    let file_size ← pyInt (← jGetDefault format_info "size" (.num 0))
                    let pf ← jGetDefault stream "pix_fmt" (.str "unknown")
                    let cr ← jGetDefault stream "color_range" (.str "unknown")
                    let tb ← jGetDefault stream "time_base" (.str "unknown")
                    pure (some
                      { width := width
                      , height := height
                      , resolution := toString width ++ "x" ++ toString height
                      , fps := fps
                      , pix_fmt := jAsStr pf
                      , color_range := jAsStr cr
                      , file_size := file_size
                      , frame_count := frame_count
                      , duration := duration
                      , timebase := jAsStr tb })
                | _ => .error .typeError
      | _ => .error .typeError

/- ---------- Concrete instances used by the theorems ---------- -/

/-- A reference-side property record used in the dispatch and comparison
theorems (4K, 50 fps, 10-bit, a 1/12800 timebase). -/
def refInfoEx : VideoInfo :=
  { width := 3840, height := 2160, resolution := "3840x2160", fps := 50,
    pix_fmt := "yuv420p10le", color_range := "tv", file_size := 1000,
    frame_count := 250, duration := 5, timebase := "1/12800" }

/-- A distorted-side property record mismatching refInfoEx in resolution,
pixel format and timebase. -/
def distInfoEx : VideoInfo :=
  { width := 1920, height := 1080, resolution := "1920x1080", fps := 50,
    pix_fmt := "yuv420p", color_range := "tv", file_size := 500,
    frame_count := 250, duration := 5, timebase := "1/1000" }

/-- A reference-side record for the framerate-only mismatch inputs. -/
def refInfoFps : VideoInfo :=
  { width := 1920, height := 1080, resolution := "1920x1080", fps := 30,
    pix_fmt := "yuv420p", color_range := "tv", file_size := 100,
    frame_count := 300, duration := 10, timebase := "1/15360" }

/-- A distorted-side record identical to refInfoFps except for a 25 fps rate. -/
def distInfoFps : VideoInfo :=
  { width := 1920, height := 1080, resolution := "1920x1080", fps := 25,
    pix_fmt := "yuv420p", color_range := "tv", file_size := 100,
    frame_count := 300, duration := 12, timebase := "1/15360" }

/-- A distorted-side record differing from refInfoFps only in the three soft
attributes: framerate, color range and pixel format. -/
def distInfoSoft : VideoInfo :=
  { width := 1920, height := 1080, resolution := "1920x1080", fps := 25,
    pix_fmt := "yuv422p", color_range := "pc", file_size := 100,
    frame_count := 300, duration := 12, timebase := "1/15360" }

/-- A probe report that parses but contains no video stream (an audio-only
input probed with a video stream selector). -/
def noStreamProbe : Json :=
  Json.obj [("streams", Json.arr []), ("format", Json.obj [])]

/-- A consolidated entry whose fastvqa key is already set. -/
def entryEx : Entry := [("name", Json.str "v"), ("fastvqa", Json.num 1)]

/-- A metric-file set offering a fastvqa result with a different score. -/
def metricsEx : List MetricFile :=
  [("fastvqa", "p", some (Json.obj [("score", Json.num 99)]))]

/-- A parsed meta file carrying a whitelisted key and an upscaling record. -/
def metaKvsEx : List (String × Json) :=
  [("bitrate", Json.num 800), ("upscaling", Json.obj [("spf", Json.num 2)])]

/-- A seed entry already holding a bitrate, to be overwritten by metaKvsEx. -/
def seedEntryEx : Entry := [("name", Json.str "v"), ("bitrate", Json.num 100)]

/- ====================================================================== -/
/- Theorems settling the claims                                           -/
/- ====================================================================== -/

/- ---------- Small association-list lemmas shared by several claims ---------- -/

theorem alookup_aset_self {α : Type} (l : List (String × α)) (k : String) (v : α) :
    alookup (aset l k v) k = some v := by
  induction l with
  | nil => simp [aset, alookup]
  | cons h t ih =>
      obtain ⟨k0, v0⟩ := h
      by_cases hk : k0 = k
      · simp [aset, alookup, hk]
      · simp [aset, alookup, hk, ih]

theorem alookup_aset_ne {α : Type} (l : List (String × α)) (k k0 : String) (v0 : α)
    (h : k0 ≠ k) : alookup (aset l k0 v0) k = alookup l k := by
  induction l with
  | nil => simp [aset, alookup, h]
  | cons hd t ih =>
      obtain ⟨k1, v1⟩ := hd
      by_cases hk : k1 = k0
      · subst hk
        simp [aset, alookup, h]
      · simp [aset, alookup, hk, ih]

/- ---------- C7 ---------- -/

/-- C7: the FR/NR partition of the mode registry leaks: the supported
identifiers lpips-alex and lpips-vgg belong to neither FR_MODES nor
NR_MODES, while FR_MODES lists the bare group name lpips which is not a
supported mode identifier. The claimed partition therefore fails on the
code (the member lpips of FR_MODES never matches a planned mode). -/
theorem mode_partition_gap :
    "lpips-alex" ∈ AVAILABLE_MODES ∧ "lpips-alex" ∉ FR_MODES ∧ "lpips-alex" ∉ NR_MODES ∧
    "lpips-vgg" ∈ AVAILABLE_MODES ∧ "lpips-vgg" ∉ FR_MODES ∧ "lpips-vgg" ∉ NR_MODES ∧
    "lpips" ∈ FR_MODES ∧ "lpips" ∉ AVAILABLE_MODES := by decide

/- ---------- C1 ---------- -/

/-- C1: because the condition at src/tools/vqcheck.py line 153 parses as the
truthiness of the string "vmaf" (always true), the corrective branch fires
for every FR mode with mismatching properties, and run_analysis dispatches
the backend even for families outside vmaf/psnr: here cvvdp-fhd is
dispatched with a computed scale and forced-fps correction despite a
hard-fail resolution and timebase mismatch, exactly as the vmaf family is.
The unconditional-skip branch for other families (lines 168-169) is dead
code. -/
theorem run_analysis_corrects_all_fr_modes :
    run_analysis "cvvdp-fhd" (some "ref.mp4") (some refInfoEx) (some distInfoEx) false false
      = .dispatched "cvvdp" false (some (3840, 2160)) (some 50) ∧
    run_analysis "vmaf4k-full" (some "ref.mp4") (some refInfoEx) (some distInfoEx) false false
      = .dispatched "ffmpeg" false (some (3840, 2160)) (some 50) := by
  constructor <;> rfl

/- ---------- C9 ---------- -/

/-- C9 counterexample: a probe run that succeeds but reports no video stream
makes get_video_info raise an uncaught Exception instead of returning the
structured error value, contradicting the claim that every input yields a
record or an error value. -/
theorem get_video_info_raises :
    get_video_info (.stdout (some noStreamProbe)) 0
      = .error (.exceptionMsg "No video stream found") := rfl

/-- C9 amended: get_video_info returns the structured None on a nonzero
ffprobe exit and on output that is not valid JSON, but raises past the
caller when the probe executable is missing, when parsed output is not an
object, when the streams field is absent, and when the stream list is
empty. -/
theorem get_video_info_error_paths (fc : Int) :
    get_video_info .calledProcessError fc = .ok none ∧
    get_video_info (.stdout none) fc = .ok none ∧
    get_video_info .fileNotFoundError fc = .error .fileNotFoundError ∧
    get_video_info (.stdout (some (Json.str "oops"))) fc = .error .typeError ∧
    get_video_info (.stdout (some (Json.obj []))) fc = .error (.keyError "streams") ∧
    get_video_info (.stdout (some noStreamProbe)) fc
      = .error (.exceptionMsg "No video stream found") :=
  ⟨rfl, rfl, rfl, rfl, rfl, rfl⟩

/-- C9 witness: the error paths at a concrete frame count. -/
theorem get_video_info_error_paths_witness :
    get_video_info .calledProcessError 0 = .ok none ∧
    get_video_info (.stdout none) 0 = .ok none ∧
    get_video_info .fileNotFoundError 0 = .error .fileNotFoundError ∧
    get_video_info (.stdout (some (Json.str "oops"))) 0 = .error .typeError ∧
    get_video_info (.stdout (some (Json.obj []))) 0 = .error (.keyError "streams") ∧
    get_video_info (.stdout (some noStreamProbe)) 0
      = .error (.exceptionMsg "No video stream found") :=
  get_video_info_error_paths 0

/- ---------- C8 ---------- -/

/-- C8 counterexample: get_video_files consumes the whole os.walk listing, so
a video sitting in a subdirectory is returned; the non-recursive discovery
the claim describes would return nothing for the same tree. -/
theorem get_video_files_recursive :
    get_video_files [("vids", ["notes.txt"]), ("vids/sub", ["a.mp4"])]
      = ["vids/sub/a.mp4"] ∧
    get_video_files_nonrecursive "vids" [("vids", ["notes.txt"]), ("vids/sub", ["a.mp4"])]
      = [] := by
  constructor <;> rfl

/-- C8 amended: every path returned by get_video_files comes from some walk
entry (at any depth of the tree, since os.walk recurses) whose file passes
the fixed filter: recognised lower-cased extension and not a hidden file. -/
theorem get_video_files_filters (walk : List (String × List String)) (p : String)
    (hp : p ∈ get_video_files walk) :
    walk.any (fun rf => rf.2.any (fun f => (pathJoin rf.1 f == p) && vid_ok f)) = true := by
  induction walk with
  | nil => simp [get_video_files] at hp
  | cons rf rest ih =>
      obtain ⟨root, files⟩ := rf
      simp only [get_video_files, List.mem_append] at hp
      rcases hp with hp | hp
      · obtain ⟨f, hf, hjoin⟩ := List.mem_map.mp hp
        obtain ⟨hfm, hok⟩ := List.mem_filter.mp hf
        refine List.any_eq_true.mpr ⟨(root, files), List.mem_cons_self _ _, ?_⟩
        refine List.any_eq_true.mpr ⟨f, hfm, ?_⟩
        simp [hjoin, hok]
      · have := ih hp
        refine List.any_eq_true.mpr ?_
        obtain ⟨x, hx, hxp⟩ := List.any_eq_true.mp this
        exact ⟨x, List.mem_cons_of_mem _ hx, hxp⟩

/-- C8 witness: the filter property at a concrete discovered file. -/
theorem get_video_files_filters_witness :
    ([("d", ["a.mp4"])] : List (String × List String)).any
      (fun rf => rf.2.any (fun f => (pathJoin rf.1 f == "d/a.mp4") && vid_ok f)) = true :=
  get_video_files_filters [("d", ["a.mp4"])] "d/a.mp4" (by decide)

/- ---------- C3 ---------- -/

/-- If a key holds a non-None value, the skip guard of the extractor loop is
active for it. -/
theorem extract_skip_of_set (entry : Entry) (k : String) (v : Json)
    (hk : alookup entry k = some v) (hv : v ≠ Json.null) :
    extract_skip entry k = true := by
  unfold extract_skip
  rw [hk]
  cases v with
  | null => exact absurd rfl hv
  | bool b => rfl
  | num q => rfl
  | str s => rfl
  | arr xs => rfl
  | obj kvs => rfl

/-- The inner extractor loop never changes a key already set to a non-None
value. -/
theorem process_config_items_keeps
    (items : List (String × (Json → Except PyExc Json)))
    (entry e2 : Entry) (path : String) (data : Json) (fails : List (String × String))
    (k : String) (v : Json) (hk : alookup entry k = some v) (hv : v ≠ Json.null)
    (hrun : process_config_items entry path data items = .ok (e2, fails)) :
    alookup e2 k = some v := by
  induction items generalizing entry fails with
  | nil =>
      simp only [process_config_items, Except.ok.injEq, Prod.mk.injEq] at hrun
      rw [← hrun.1, hk]
  | cons item rest ih =>
      obtain ⟨output_key, extractor⟩ := item
      simp only [process_config_items] at hrun
      by_cases hs : extract_skip entry output_key = true
      · rw [if_pos hs] at hrun
        exact ih entry fails hk hrun
      · rw [if_neg hs] at hrun
        cases hx : extractor data with
        | ok val =>
            rw [hx] at hrun
            dsimp only at hrun
            have hne : output_key ≠ k := by
              intro he
              subst he
              exact hs (extract_skip_of_set entry output_key v hk hv)
            have hk2 : alookup (aset entry output_key val) k = some v := by
              rw [alookup_aset_ne _ _ _ _ hne, hk]
            exact ih _ fails hk2 hrun
        | error e =>
            rw [hx] at hrun
            dsimp only at hrun
            by_cases hc : caught_by_extract e = true
            · rw [if_pos hc] at hrun
              cases hr : process_config_items entry path data rest with
              | ok pr =>
                  obtain ⟨ent, fails2⟩ := pr
                  rw [hr] at hrun
                  simp only [Except.ok.injEq, Prod.mk.injEq] at hrun
                  obtain ⟨he, _⟩ := hrun
                  subst he
                  exact ih entry fails2 hk hr
              | error e2 =>
                  rw [hr] at hrun
                  exact absurd hrun (by simp)
            · rw [if_neg hc] at hrun
              exact absurd hrun (by simp)

/-- The whole extractor pass over the config table never changes a key
already set to a non-None value. -/
theorem process_configs_all_keeps
    (configs : List (String × List (String × (Json → Except PyExc Json))))
    (entry e2 : Entry) (metrics : List MetricFile)
    (fl : List String) (fe : List (String × String))
    (k : String) (v : Json) (hk : alookup entry k = some v) (hv : v ≠ Json.null)
    (hrun : process_configs_all entry metrics configs = .ok (e2, fl, fe)) :
    alookup e2 k = some v := by
  induction configs generalizing entry fl fe with
  | nil =>
      simp only [process_configs_all, Except.ok.injEq, Prod.mk.injEq] at hrun
      rw [← hrun.1, hk]
  | cons cfg rest ih =>
      obtain ⟨metric_key, config⟩ := cfg
      simp only [process_configs_all] at hrun
      cases hlm : lookup_metric metrics metric_key with
      | none =>
          rw [hlm] at hrun
          exact ih entry fl fe hk hrun
      | some pc =>
          obtain ⟨path, content⟩ := pc
          rw [hlm] at hrun
          dsimp only at hrun
          cases content with
          | none =>
              dsimp only at hrun
              cases hr : process_configs_all entry metrics rest with
              | ok pr =>
                  obtain ⟨e3, fl2, fe2⟩ := pr
                  rw [hr] at hrun
                  simp only [Except.ok.injEq, Prod.mk.injEq] at hrun
                  obtain ⟨he, _⟩ := hrun
                  subst he
                  exact ih entry fl2 fe2 hk hr
              | error e =>
                  rw [hr] at hrun
                  exact absurd hrun (by simp)
          | some j =>
              dsimp only at hrun
              by_cases hj : jsonTruthy j = true
              · rw [if_pos hj] at hrun
                dsimp only at hrun
                cases hi : process_config_items entry path j config with
                | ok pr1 =>
                    obtain ⟨e1, fails⟩ := pr1
                    rw [hi] at hrun
                    dsimp only at hrun
                    have hk1 : alookup e1 k = some v :=
                      process_config_items_keeps config entry e1 path j fails k v hk hv hi
                    cases hr : process_configs_all e1 metrics rest with
                    | ok pr =>
                        obtain ⟨e3, fl2, fe2⟩ := pr
                        rw [hr] at hrun
                        simp only [Except.ok.injEq, Prod.mk.injEq] at hrun
                        obtain ⟨he, _⟩ := hrun
                        subst he
                        exact ih e1 fl2 fe2 hk1 hr
                    | error e =>
                        rw [hr] at hrun
                        exact absurd hrun (by simp)
                | error e =>
                    rw [hi] at hrun
                    exact absurd hrun (by simp)
              · rw [if_neg hj] at hrun
                dsimp only at hrun
                cases hr : process_configs_all entry metrics rest with
                | ok pr =>
                    obtain ⟨e3, fl2, fe2⟩ := pr
                    rw [hr] at hrun
                    simp only [Except.ok.injEq, Prod.mk.injEq] at hrun
                    obtain ⟨he, _⟩ := hrun
                    subst he
                    exact ih entry fl2 fe2 hk hr
                | error e =>
                    rw [hr] at hrun
                    exact absurd hrun (by simp)

/-- C3: an output key of a ConsolidatedEntry set to a non-null value (whether
seeded or written by an earlier extractor) is never replaced by any later
extractor attempt of the aggregation pass over metric_configs, and a second
pass over the same metric files leaves it unchanged as well. -/
theorem aggmet_never_regress (entry e2 e3 : Entry) (metrics : List MetricFile)
    (k : String) (v : Json)
    (fl fl2 : List String) (fe fe2 : List (String × String))
    (hk : alookup entry k = some v) (hv : v ≠ Json.null)
    (h1 : process_configs_all entry metrics metric_configs = .ok (e2, fl, fe))
    (h2 : process_configs_all e2 metrics metric_configs = .ok (e3, fl2, fe2)) :
    alookup e2 k = some v ∧ alookup e3 k = some v := by
  have hfirst := process_configs_all_keeps metric_configs entry e2 metrics fl fe k v hk hv h1
  exact ⟨hfirst, process_configs_all_keeps metric_configs e2 e3 metrics fl2 fe2 k v hfirst hv h2⟩

/-- C3 witness: a seeded fastvqa value survives two aggregation passes over a
fastvqa metric file carrying a different score. -/
theorem aggmet_never_regress_witness :
    alookup entryEx "fastvqa" = some (Json.num 1) ∧
    alookup entryEx "fastvqa" = some (Json.num 1) :=
  aggmet_never_regress entryEx entryEx entryEx metricsEx "fastvqa" (Json.num 1)
    [] [] [] [] rfl (fun h => Json.noConfusion h) rfl rfl

/- ---------- C2 ---------- -/

/-- C2: a metric file that fails to parse is recorded in failed_load and
skipped while the rest of the run completes (first conjunct: the malformed
fastvqa file of v1 is recorded, v2 is still aggregated) - but a malformed
meta file aborts the whole aggregation with an uncaught AttributeError
(second conjunct), because the meta branch calls items() on the None that
load_json_if_exists returns for it. -/
theorem aggregation_abort_on_meta :
    aggregate [] [("v1", [("fastvqa", "p1", none)]),
                  ("v2", [("fastvqa", "p2", some (Json.obj [("score", Json.num 77)]))])]
      = .ok ([("v1", [("name", Json.str "v1")]),
              ("v2", [("name", Json.str "v2"), ("fastvqa", Json.num 77)])],
             ["p1"], []) ∧
    aggregate [] [("v1", [("meta", "p3", none)])] = .error .attributeError := by
  constructor <;> rfl

/- ---------- C10 ---------- -/

/-- The metadata loop only ever writes whitelisted keys it encounters and the
upscaling_spf key; every other key of the entry is untouched. -/
theorem process_meta_items_preserve
    (items : List (String × Json)) (entry e3 : Entry) (k : String)
    (h1 : meta_keys.contains k = true → k ∉ items.map Prod.fst)
    (h2 : "upscaling" ∈ items.map Prod.fst → k ≠ "upscaling_spf")
    (hok : process_meta_items entry items = .ok e3) :
    alookup e3 k = alookup entry k := by
  induction items generalizing entry with
  | nil =>
      simp only [process_meta_items, Except.ok.injEq] at hok
      rw [← hok]
  | cons item rest ih =>
      obtain ⟨key, value⟩ := item
      simp only [process_meta_items] at hok
      have h1r : meta_keys.contains k = true → k ∉ rest.map Prod.fst := by
        intro hc hm
        exact h1 hc (List.mem_cons_of_mem _ hm)
      by_cases hku : (key == "upscaling") = true
      · have hkey : key = "upscaling" := by simpa using hku
        subst hkey
        have hne : k ≠ "upscaling_spf" :=
          h2 (by simp)
        rw [if_pos hku] at hok
        cases hg : jGetItem value "spf" with
        | ok spf =>
            rw [hg] at hok
            dsimp only at hok
            have h2r : "upscaling" ∈ rest.map Prod.fst → k ≠ "upscaling_spf" :=
              fun _ => hne
            have := ih _ h1r h2r hok
            rw [this]
            have hcu : ¬(meta_keys.contains "upscaling" = true) := by decide
            rw [if_neg hcu, alookup_aset_ne _ _ _ _ (Ne.symm hne)]
        | error e =>
            rw [hg] at hok
            exact absurd hok (by simp)
      · rw [if_neg hku] at hok
        have h2r : "upscaling" ∈ rest.map Prod.fst → k ≠ "upscaling_spf" := by
          intro hm
          exact h2 (List.mem_cons_of_mem _ hm)
        have := ih _ h1r h2r hok
        rw [this]
        by_cases hck : meta_keys.contains key = true
        · have hkn : key ≠ k := by
            intro he
            subst he
            exact h1 hck (by simp)
          rw [if_pos hck, alookup_aset_ne _ _ _ _ hkn]
        · rw [if_neg hck]

/-- Any whitelisted key present in the parsed meta object ends up in the
entry with the meta value, regardless of what the entry held before. -/
theorem process_meta_items_sets
    (items : List (String × Json)) (entry e2 : Entry) (k : String) (v : Json)
    (hnodup : (items.map Prod.fst).Nodup)
    (hmem : (k, v) ∈ items) (hwl : meta_keys.contains k = true)
    (hok : process_meta_items entry items = .ok e2) :
    alookup e2 k = some v := by
  induction items generalizing entry with
  | nil => simp at hmem
  | cons item rest ih =>
      obtain ⟨key, value⟩ := item
      have hnd : key ∉ rest.map Prod.fst ∧ (rest.map Prod.fst).Nodup := by
        have h := hnodup
        simp only [List.map_cons, List.nodup_cons] at h
        exact h
      simp only [process_meta_items] at hok
      by_cases hke : key = k
      · subst hke
        have hv : value = v := by
          rcases List.mem_cons.mp hmem with heq | hmemrest
          · injection heq with h1 h2
            exact h2.symm
          · exact absurd (List.mem_map.mpr ⟨(key, v), hmemrest, rfl⟩) hnd.1
        subst hv
        have hku : ¬((key == "upscaling") = true) := by
          intro hb
          have hkey : key = "upscaling" := by simpa using hb
          rw [hkey] at hwl
          exact absurd hwl (by decide)
        rw [if_neg hku, if_pos hwl] at hok
        have hpres := process_meta_items_preserve rest (aset entry key value) e2 key
          (fun _ => hnd.1)
          (fun _ hk2 => by rw [hk2] at hwl; exact absurd hwl (by decide)) hok
        rw [hpres, alookup_aset_self]
      · have hmemrest : (k, v) ∈ rest := by
          rcases List.mem_cons.mp hmem with heq | h
          · exact absurd (congrArg Prod.fst heq).symm hke
          · exact h
        by_cases hku : (key == "upscaling") = true
        · rw [if_pos hku] at hok
          cases hg : jGetItem value "spf" with
          | ok spf =>
              rw [hg] at hok
              dsimp only at hok
              exact ih _ hnd.2 hmemrest hok
          | error e =>
              rw [hg] at hok
              exact absurd hok (by simp)
        · rw [if_neg hku] at hok
          exact ih _ hnd.2 hmemrest hok

/-- An upscaling record present in the parsed meta object always lands as
upscaling_spf, regardless of what the entry held before. -/
theorem process_meta_items_upscaling
    (items : List (String × Json)) (entry e2 : Entry) (u s : Json)
    (hnodup : (items.map Prod.fst).Nodup)
    (hmem : ("upscaling", u) ∈ items) (hspf : jGetItem u "spf" = .ok s)
    (hok : process_meta_items entry items = .ok e2) :
    alookup e2 "upscaling_spf" = some s := by
  induction items generalizing entry with
  | nil => simp at hmem
  | cons item rest ih =>
      obtain ⟨key, value⟩ := item
      have hnd : key ∉ rest.map Prod.fst ∧ (rest.map Prod.fst).Nodup := by
        have h := hnodup
        simp only [List.map_cons, List.nodup_cons] at h
        exact h
      simp only [process_meta_items] at hok
      by_cases hke : key = "upscaling"
      · subst hke
        have hv : value = u := by
          rcases List.mem_cons.mp hmem with heq | hmemrest
          · injection heq with h1 h2
            exact h2.symm
          · exact absurd (List.mem_map.mpr ⟨("upscaling", u), hmemrest, rfl⟩) hnd.1
        subst hv
        rw [if_pos (by simp), hspf] at hok
        dsimp only at hok
        have hpres := process_meta_items_preserve rest _ e2 "upscaling_spf"
          (fun hc => absurd hc (by decide))
          (fun hm => absurd hm hnd.1) hok
        rw [hpres]
        have hcu : ¬(meta_keys.contains "upscaling" = true) := by decide
        rw [if_neg hcu, alookup_aset_self]
      · have hmemrest : ("upscaling", u) ∈ rest := by
          rcases List.mem_cons.mp hmem with heq | h
          · exact absurd (congrArg Prod.fst heq) (fun hh => hke hh.symm)
          · exact h
        by_cases hku : (key == "upscaling") = true
        · exact absurd (by simpa using hku) hke
        · rw [if_neg hku] at hok
          exact ih _ hnd.2 hmemrest hok

/-- C10: every whitelisted metadata key found in a parsed meta file is written
into the ConsolidatedEntry unconditionally, overwriting whatever the entry
(seeded or not) already held, and an upscaling record is stored as
upscaling_spf the same way; the never-regress skip of the extractor loop
does not apply to this branch. -/
theorem aggmet_meta_overwrites (entry e2 : Entry) (kvs : List (String × Json))
    (k : String) (v u s : Json)
    (hnodup : (kvs.map Prod.fst).Nodup)
    (hmem : (k, v) ∈ kvs) (hwl : meta_keys.contains k = true)
    (hmemU : ("upscaling", u) ∈ kvs) (hspf : jGetItem u "spf" = .ok s)
    (hok : process_meta entry (some (Json.obj kvs)) = .ok e2) :
    alookup e2 k = some v ∧ alookup e2 "upscaling_spf" = some s := by
  have hok2 : process_meta_items entry kvs = .ok e2 := hok
  exact ⟨process_meta_items_sets kvs entry e2 k v hnodup hmem hwl hok2,
         process_meta_items_upscaling kvs entry e2 u s hnodup hmemU hspf hok2⟩

/-- C10 witness: a seeded bitrate of 100 is overwritten by the meta value 800
and the upscaling spf is stored, on concrete data. -/
theorem aggmet_meta_overwrites_witness :
    alookup [("name", Json.str "v"), ("bitrate", Json.num 800),
             ("upscaling_spf", Json.num 2)] "bitrate" = some (Json.num 800) ∧
    alookup [("name", Json.str "v"), ("bitrate", Json.num 800),
             ("upscaling_spf", Json.num 2)] "upscaling_spf" = some (Json.num 2) :=
  aggmet_meta_overwrites seedEntryEx
    [("name", Json.str "v"), ("bitrate", Json.num 800), ("upscaling_spf", Json.num 2)]
    metaKvsEx "bitrate" (Json.num 800) (Json.obj [("spf", Json.num 2)]) (Json.num 2)
    (by decide) (List.mem_cons_self _ _) (by decide)
    (List.mem_cons_of_mem _ (List.mem_cons_self _ _)) rfl rfl

/- ---------- C4 ---------- -/

/-- C4 counterexample: on a pair differing only in frame rate (30 vs 25 fps,
beyond the 0.001 tolerance), the legacy comparison of src/vqcheck.py reports
failure (it sets has_errors for the framerate check despite printing a
warning), while the comparison of src/tools/vqcheck.py passes; the claim
that a frame-rate difference never by itself causes the comparison to
report failure is therefore false for the legacy comparison it cites. -/
theorem fps_gap_30_25 : fps_tolerance < |(30 : Rat) - 25| := by
  have h5 : |(30 : Rat) - 25| = 5 := by
    rw [show (30 : Rat) - 25 = 5 by norm_num]
    exact abs_of_pos (by norm_num)
  rw [h5]
  norm_num [fps_tolerance]

theorem legacy_blocks_on_framerate :
    compare_video_properties_legacy (some refInfoFps) (some distInfoFps) = false ∧
    compare_video_properties (some refInfoFps) (some distInfoFps) = true := by
  constructor
  · show (if refInfoFps.width ≠ distInfoFps.width ∨ refInfoFps.height ≠ distInfoFps.height ∨
        refInfoFps.frame_count ≠ distInfoFps.frame_count ∨
        fps_tolerance < |refInfoFps.fps - distInfoFps.fps| then false else true) = false
    rw [if_pos]
    exact Or.inr (Or.inr (Or.inr fps_gap_30_25))
  · have hm : property_messages refInfoFps distInfoFps = [("WARNING", "Framerate mismatch")] := by
      unfold property_messages
      rw [show refInfoFps.fps = 30 from rfl, show distInfoFps.fps = 25 from rfl]
      rw [if_neg (by decide), if_neg (by decide), if_pos fps_gap_30_25,
          if_neg (by decide), if_neg (by decide), if_neg (by decide)]
      rfl
    show (!((property_messages refInfoFps distInfoFps).any (fun m => m.1 == "ERROR"))) = true
    rw [hm]
    rfl

/-- C4 amended: in the src/tools/vqcheck.py comparison, when the hard
attributes (resolution, frame count, timebase) agree, a framerate difference
beyond tolerance, a color-range mismatch with both sides known, and a
pixel-format mismatch yield exactly the three WARNING messages and the
comparison still passes; in the legacy src/vqcheck.py comparison the
framerate difference alone reports failure. -/
theorem soft_conditions_warn_only (ri di : VideoInfo)
    (hw : ri.width = di.width) (hh : ri.height = di.height)
    (hc : ri.frame_count = di.frame_count) (ht : ri.timebase = di.timebase)
    (hfps : fps_tolerance < |ri.fps - di.fps|)
    (hcr : ri.color_range ≠ di.color_range) (hcr1 : ri.color_range ≠ "unknown")
    (hcr2 : di.color_range ≠ "unknown") (hpf : ri.pix_fmt ≠ di.pix_fmt) :
    property_messages ri di =
      [("WARNING", "Framerate mismatch"), ("WARNING", "Color range mismatch"),
       ("WARNING", "Pixel format mismatch")] ∧
    compare_video_properties (some ri) (some di) = true := by
  have hmsg : property_messages ri di =
      [("WARNING", "Framerate mismatch"), ("WARNING", "Color range mismatch"),
       ("WARNING", "Pixel format mismatch")] := by
    unfold property_messages
    rw [if_neg (by simp [hw, hh]), if_neg (by simp [hc]), if_pos hfps,
        if_pos ⟨hcr, hcr1, hcr2⟩, if_pos hpf, if_neg (by simp [ht])]
    rfl
  refine ⟨hmsg, ?_⟩
  show (!((property_messages ri di).any (fun m => m.1 == "ERROR"))) = true
  rw [hmsg]
  rfl

/-- C4 witness: the three soft mismatches on concrete records. -/
theorem soft_conditions_warn_only_witness :
    property_messages refInfoFps distInfoSoft =
      [("WARNING", "Framerate mismatch"), ("WARNING", "Color range mismatch"),
       ("WARNING", "Pixel format mismatch")] ∧
    compare_video_properties (some refInfoFps) (some distInfoSoft) = true :=
  soft_conditions_warn_only refInfoFps distInfoSoft rfl rfl rfl rfl fps_gap_30_25
    (by decide) (by decide) (by decide) (by decide)

/- ---------- C5 ---------- -/

/-- C5: the planner adds a job only when the canonical result path does not
exist (first conjunct), and a second planner run against a filesystem that
has at least the first run's files plus every planned job's output yields an
empty job list (second conjunct). -/
theorem planner_dedup_idempotent (ds refs : List String) (mode : String)
    (odir : Option String) (fs fs2 : List String)
    (hmono : fs.all (fun p => fs2.contains p) = true)
    (hdone : (get_jobs ds refs mode odir fs).all
        (fun j => fs2.contains (get_output_filename j.2.1 mode odir)) = true) :
    (get_jobs ds refs mode odir fs).all
        (fun j => !(fs.contains (get_output_filename j.2.1 mode odir))) = true ∧
    get_jobs ds refs mode odir fs2 = [] := by
  induction ds with
  | nil => exact ⟨rfl, rfl⟩
  | cons d rest ih =>
      by_cases hx : get_output_filename d mode odir ∈ fs
      · have h1 : get_jobs (d :: rest) refs mode odir fs = get_jobs rest refs mode odir fs := by
          simp [get_jobs, hx]
        rw [h1] at hdone
        have hx2 : get_output_filename d mode odir ∈ fs2 := by
          have hcont := List.all_eq_true.mp hmono _ hx
          exact List.elem_iff.mp hcont
        obtain ⟨ha, hb⟩ := ih hdone
        refine ⟨by rw [h1]; exact ha, ?_⟩
        simp [get_jobs, hx2, hb]
      · by_cases hr : job_reference d refs = none ∧ mode ∈ FR_MODES
        · have h1 : get_jobs (d :: rest) refs mode odir fs = get_jobs rest refs mode odir fs := by
            simp [get_jobs, hx, hr]
          rw [h1] at hdone
          obtain ⟨ha, hb⟩ := ih hdone
          refine ⟨by rw [h1]; exact ha, ?_⟩
          by_cases hx2 : get_output_filename d mode odir ∈ fs2
          · simp [get_jobs, hx2, hb]
          · simp [get_jobs, hx2, hr, hb]
        · have h1 : get_jobs (d :: rest) refs mode odir fs
              = (mode, d, job_reference d refs, odir) :: get_jobs rest refs mode odir fs := by
            simp [get_jobs, hx, hr]
          rw [h1] at hdone
          simp only [List.all_cons, Bool.and_eq_true] at hdone
          obtain ⟨hd1, hd2⟩ := hdone
          obtain ⟨ha, hb⟩ := ih hd2
          constructor
          · rw [h1]
            simp only [List.all_cons, Bool.and_eq_true]
            refine ⟨?_, ha⟩
            simp only [Bool.not_eq_true']
            exact (Bool.not_eq_true _).mp (fun hcon => hx (List.elem_iff.mp hcon))
          · have hx2 : get_output_filename d mode odir ∈ fs2 := List.elem_iff.mp hd1
            simp [get_jobs, hx2, hb]

/-- C5 witness: one distorted file planned on an empty filesystem, and the
second run against the produced output yields no jobs. -/
theorem planner_dedup_idempotent_witness :
    (get_jobs ["a.mp4"] [] "dover" (some "out") []).all
        (fun j => !(([] : List String).contains (get_output_filename j.2.1 "dover" (some "out")))) = true ∧
    get_jobs ["a.mp4"] [] "dover" (some "out") ["out/a.dover.json"] = [] :=
  planner_dedup_idempotent ["a.mp4"] [] "dover" (some "out") [] ["out/a.dover.json"]
    rfl (by decide)

/- ---------- C6 ---------- -/

/-- The accumulator loop of find_reference_file returns the first reference
attaining the list maximum whenever some reference beats the incoming best
count, and the incoming best match otherwise. -/
theorem frfAux_spec (d : String) (refs : List String) :
    ∀ (best : Option String) (maxc : Nat),
      frfAux d refs best maxc =
        if maxc < maxMatchLen d refs
        then refs.find? (fun x => ref_match_len d x == maxMatchLen d refs)
        else best := by
  induction refs with
  | nil =>
      intro best maxc
      simp [frfAux, maxMatchLen]
  | cons r rs ih =>
      intro best maxc
      have hM : maxMatchLen d (r :: rs) = max (ref_match_len d r) (maxMatchLen d rs) := rfl
      simp only [frfAux]
      by_cases h1 : maxc < ref_match_len d r
      · rw [if_pos h1, ih]
        by_cases h2 : ref_match_len d r < maxMatchLen d rs
        · have hMv : maxMatchLen d (r :: rs) = maxMatchLen d rs := by
            rw [hM]
            exact Nat.max_eq_right (Nat.le_of_lt h2)
          rw [if_pos h2, hMv]
          have hcond : maxc < maxMatchLen d rs := Nat.lt_trans h1 h2
          rw [if_pos hcond]
          rw [List.find?_cons_of_neg]
          simp only [beq_iff_eq]
          exact Nat.ne_of_lt h2
        · have h2le : maxMatchLen d rs ≤ ref_match_len d r := Nat.not_lt.mp h2
          have hMv : maxMatchLen d (r :: rs) = ref_match_len d r := by
            rw [hM]
            exact Nat.max_eq_left h2le
          rw [if_neg h2, hMv, if_pos h1]
          rw [List.find?_cons_of_pos]
          simp
      · rw [if_neg h1, ih]
        have h1le : ref_match_len d r ≤ maxc := Nat.not_lt.mp h1
        by_cases h3 : maxc < maxMatchLen d rs
        · have hMv : maxMatchLen d (r :: rs) = maxMatchLen d rs := by
            rw [hM]
            exact Nat.max_eq_right (Nat.le_trans h1le (Nat.le_of_lt h3))
          rw [if_pos h3, hMv, if_pos h3]
          rw [List.find?_cons_of_neg]
          simp only [beq_iff_eq]
          exact Nat.ne_of_lt (Nat.lt_of_le_of_lt h1le h3)
        · have hncond : ¬(maxc < maxMatchLen d (r :: rs)) := by
            rw [hM]
            exact Nat.not_lt.mpr (Nat.max_le.mpr ⟨h1le, Nat.not_lt.mp h3⟩)
          rw [if_neg h3, if_neg hncond]

/-- C6: whenever some reference shares at least one leading character with
the distorted name (the positive-maximum hypothesis), find_reference_file
returns the first reference in list order attaining the maximal
case-insensitive character-by-character match length; with exactly one
reference file every planned job uses it; and the concrete clipA example of
the spec resolves as claimed. -/
theorem find_reference_longest_match (d : String) (refs : List String)
    (ds : List String) (r mode : String) (odir : Option String) (fs : List String)
    (hmax : 0 < maxMatchLen d refs) :
    find_reference_file d refs
      = refs.find? (fun x => ref_match_len d x == maxMatchLen d refs) ∧
    (get_jobs ds [r] mode odir fs).all (fun j => j.2.2.1 == some r) = true ∧
    find_reference_file "clipA_q30" ["clipA_original", "clipB_original"]
      = some "clipA_original" := by
  refine ⟨?_, ?_, ?_⟩
  · have hs := frfAux_spec d refs none 0
    rw [find_reference_file, hs, if_pos hmax]
  · induction ds with
    | nil => rfl
    | cons d0 rest ih =>
        by_cases hx : get_output_filename d0 mode odir ∈ fs
        · simpa [get_jobs, hx] using ih
        · have hjr : job_reference d0 [r] = some r := rfl
          have hcond : ¬(job_reference d0 [r] = none ∧ mode ∈ FR_MODES) := by
            intro hcc
            rw [hjr] at hcc
            exact Option.noConfusion hcc.1
          simpa [get_jobs, hx, hcond, hjr] using ih
  · rfl

/-- C6 witness: the first-longest-match characterisation, the single-reference
planner behaviour and the clipA example at concrete inputs. -/
theorem find_reference_longest_match_witness :
    find_reference_file "clipA_q30" ["clipA_original", "clipB_original"]
      = ["clipA_original", "clipB_original"].find?
          (fun x => ref_match_len "clipA_q30" x
            == maxMatchLen "clipA_q30" ["clipA_original", "clipB_original"]) ∧
    (get_jobs ["v.mp4"] ["ref.mp4"] "vmaf" none []).all
        (fun j => j.2.2.1 == some "ref.mp4") = true ∧
    find_reference_file "clipA_q30" ["clipA_original", "clipB_original"]
      = some "clipA_original" :=
  find_reference_longest_match "clipA_q30" ["clipA_original", "clipB_original"]
    ["v.mp4"] "ref.mp4" "vmaf" none [] (by decide)
